import Mathlib

/-!
# Linter editor module: save hook, tick batching and settings

A shallow embedding of `FLinterModule` (Linter.h / Linter.cpp) and of the
`ULinterSettings` constructor (LinterSettings.cpp), followed by the properties
proved about them.

Conventions of the embedding

* `TArray<T>` is a `List T`; `Push` and `Add` append at the end, `Num` is the
  length, `Empty` yields `[]`.  `TArray::Num` is an `int32`, so an array never
  holds more than `2^31 - 1` elements and the `int` counters of
  `OnObjectSaved`, which are incremented once per element, cannot overflow;
  they are natural numbers here.
* `FString::operator==`, used by `TArray::AddUnique`, is engine code outside the
  sources; it is the parameter `eq` of every definition that needs it.
* Engine collaborators whose code is outside the sources (the soft pointer
  loader, the scan `ULintRuleSet::LintPathShared`, the object finder) are
  parameters; the calls made to them are recorded in the editor state.
-/

set_option linter.dupNamespace false

namespace Linter

/-- An engine string. -/
abbrev FString := String

/-- An engine name. -/
abbrev FName := String

/-! ## Rules and violations -/

/-- Modelled from the spec: the declaration of `ELintRuleSeverity` is not among
the sources.  The spec gives the enumerators from most to least severe,
`Fatal < Error < Warning < Info`. -/
inductive ELintRuleSeverity where
  | Fatal
  | Error
  | Warning
  | Info
  deriving DecidableEq, Repr

/-- Underlying value of an enumerator, in declaration order. -/
def ELintRuleSeverity.toNat : ELintRuleSeverity → Nat
  | .Fatal => 0
  | .Error => 1
  | .Warning => 2
  | .Info => 3

/-- The built-in comparison of a scoped enumeration compares underlying values. -/
instance : LE ELintRuleSeverity := ⟨fun a b => a.toNat ≤ b.toNat⟩

instance (a b : ELintRuleSeverity) : Decidable (a ≤ b) :=
  inferInstanceAs (Decidable (a.toNat ≤ b.toNat))

/-- Modelled from the spec: the declaration of `ULintRule` is not among the
sources.  Only the member read by `OnObjectSaved` is kept: the severity of a
rule object. -/
structure ULintRule where
  RuleSeverity : ELintRuleSeverity
  deriving DecidableEq, Repr

/-- A rule class, the value of a `TSubclassOf<ULintRule>`: its stable identifier
and its class default object, which `GetDefaultObject<ULintRule>()` returns. -/
structure ULintRuleClass where
  Identifier : FName
  GetDefaultObject : ULintRule
  deriving DecidableEq, Repr

/-- Modelled from the spec: the declaration of `FLintRuleViolation` is not among
the sources.  The spec has a violation record the violating asset's identity, a
reference to the rule that produced it, the effective severity at evaluation
time and a message. -/
structure FLintRuleViolation where
  Violator : FString
  ViolatedRule : ULintRuleClass
  EffectiveSeverity : ELintRuleSeverity
  Message : String
  deriving DecidableEq, Repr

/-- A rule set object, known by its path name.  Its scan `LintPathShared` is a
collaborator, see `Collaborators.LintPathShared`. -/
structure ULintRuleSet where
  PathName : FString
  deriving DecidableEq, Repr

/-- A `TSoftObjectPtr<ULintRuleSet>`: the path of the object it refers to, or
`none` for a null soft pointer. -/
abbrev TSoftObjectPtr := Option FString

/-- `TSoftObjectPtr::IsNull`. -/
def TSoftObjectPtr.IsNull (p : TSoftObjectPtr) : Bool := p.isNone

/-- Assignment of a raw object pointer (`none` is `nullptr`) to a soft pointer. -/
def TSoftObjectPtr.ofObject (Object : Option ULintRuleSet) : TSoftObjectPtr :=
  Object.map (fun o => o.PathName)

/-- The settings object; only the member used by the sources is kept. -/
structure ULinterSettings where
  DefaultLintRuleSet : TSoftObjectPtr
  deriving DecidableEq, Repr

/-- A saved object, as seen by the save hook: `GetPathName()` is all it reads. -/
structure UObject where
  GetPathName : FString
  deriving DecidableEq, Repr

/-! ## Module state -/

/-- The data members of `FLinterModule` that the embedded functions touch. -/
structure FLinterModule where
  DesiredLintPaths : List FString
  SavedObjectPaths : List FString
  deriving DecidableEq, Repr

/-- One recorded call of `ULintRuleSet::LintPathShared`. -/
structure ScanCall where
  RuleSet : ULintRuleSet
  AssetPaths : List FString
  deriving DecidableEq, Repr

/-- The editor as far as the module can change it.  `Linter` is the one
module object registered under the name "Linter" by `IMPLEMENT_MODULE`; it is
both `this` and what `FModuleManager::LoadModuleChecked<FLinterModule>("Linter")`
returns.  `ScanCalls` and `InvokedTabs` record, in order, the calls made to
`LintPathShared` and to `FTabManager::TryInvokeTab`. -/
structure Editor where
  Linter : FLinterModule
  ScanCalls : List ScanCall
  InvokedTabs : List FName
  deriving DecidableEq, Repr

/-- What the save hook reads from its surroundings at the time of one save. -/
structure Collaborators where
  /-- `GetDefault<ULinterSettings>()`. -/
  Settings : ULinterSettings
  /-- `TSoftObjectPtr::LoadSynchronous`; `none` is a null result. -/
  LoadSynchronous : TSoftObjectPtr → Option ULintRuleSet
  /-- The violations `ULintRuleSet::LintPathShared` returns for a rule set and a
  path list. -/
  LintPathShared : ULintRuleSet → List FString → List FLintRuleViolation

/-! ## Linter.h -/

/-- `FLinterModule::GetDesiredLintPaths`: the returned array and the module
after the call. -/
def GetDesiredLintPaths (m : FLinterModule) : List FString × FLinterModule :=
  let m1 : FLinterModule :=
    if m.DesiredLintPaths.length = 0 then
      { m with DesiredLintPaths := m.DesiredLintPaths ++ ["/Game"] }
    else m
  (m1.DesiredLintPaths, m1)

/-- `FLinterModule::SetDesiredLintPaths`. -/
def SetDesiredLintPaths (m : FLinterModule) (LintPaths : List FString) : FLinterModule :=
  let m1 : FLinterModule := { m with DesiredLintPaths := LintPaths }
  if m1.DesiredLintPaths.length = 0 then
    { m1 with DesiredLintPaths := m1.DesiredLintPaths ++ ["/Game"] }
  else m1

/-! ## Linter.cpp -/

/-- `TArray::AddUnique`: the item is appended unless an element that compares
equal to it is already in the array. -/
def AddUnique (eq : FString → FString → Bool) (xs : List FString) (Item : FString) :
    List FString :=
  if xs.any (fun e => eq e Item) then xs else xs ++ [Item]

/-- `FLinterModule::Tick`. -/
def Tick (ed : Editor) : Editor :=
  if ed.Linter.SavedObjectPaths.length > 0 then
    let ed1 : Editor :=
      { ed with Linter := SetDesiredLintPaths ed.Linter ed.Linter.SavedObjectPaths }
    let ed2 : Editor := { ed1 with InvokedTabs := ed1.InvokedTabs ++ ["LinterTab"] }
    { ed2 with Linter := { ed2.Linter with SavedObjectPaths := [] } }
  else ed

/-- The two counters of `OnObjectSaved`. -/
structure Tally where
  NumErrors : Nat
  NumWarnings : Nat
  deriving DecidableEq, Repr

/-- Body of the loop of `OnObjectSaved` for one violation. -/
def tallyStep (t : Tally) (Violation : FLintRuleViolation) : Tally :=
  if Violation.ViolatedRule.GetDefaultObject.RuleSeverity ≤ ELintRuleSeverity.Error then
    { t with NumErrors := t.NumErrors + 1 }
  else
    { t with NumWarnings := t.NumWarnings + 1 }

/-- The loop of `OnObjectSaved` over the returned violations, from both counters
at zero. -/
def tallyViolations (RuleViolations : List FLintRuleViolation) : Tally :=
  RuleViolations.foldl tallyStep { NumErrors := 0, NumWarnings := 0 }

/-- What one run of `OnObjectSaved` leaves: the editor after the call and the
final values of its locals. -/
structure SaveResult where
  After : Editor
  LintPaths : List FString
  RuleViolations : List FLintRuleViolation
  NumErrors : Nat
  NumWarnings : Nat

/-- `FLinterModule::OnObjectSaved`.  The result is `none` when the loaded default
rule set is null: the scan is then called through a null pointer. -/
def OnObjectSaved (eq : FString → FString → Bool) (c : Collaborators) (ed : Editor)
    (SavedObject : UObject) : Option SaveResult :=
  match c.LoadSynchronous c.Settings.DefaultLintRuleSet with
  | none => none
  | some SelectedLintRuleSet =>
    let LintPaths : List FString := [] ++ [SavedObject.GetPathName]
    let RuleViolations := c.LintPathShared SelectedLintRuleSet LintPaths
    let ed1 : Editor :=
      { ed with ScanCalls := ed.ScanCalls ++ [{ RuleSet := SelectedLintRuleSet, AssetPaths := LintPaths }] }
    let t := tallyViolations RuleViolations
    let ed2 : Editor :=
      if t.NumErrors > 0 ∨ t.NumWarnings > 0 then
        match LintPaths.head? with
        | some p => { ed1 with Linter := { ed1.Linter with SavedObjectPaths := AddUnique eq ed1.Linter.SavedObjectPaths p } }
        | none => ed1
      else ed1
    some { After := ed2, LintPaths := LintPaths, RuleViolations := RuleViolations,
           NumErrors := t.NumErrors, NumWarnings := t.NumWarnings }

/-- One call of the module from the editor: a save of an object, with what the
hook reads from its surroundings at that moment, or a tick. -/
inductive Call where
  | Saved (c : Collaborators) (SavedObject : UObject)
  | Ticked

/-- Runs a sequence of calls from an editor state, first call first.  The result
is `none` when a save in the sequence dereferences a null rule set. -/
def runCalls (eq : FString → FString → Bool) : Editor → List Call → Option Editor
  | ed, [] => some ed
  | ed, Call.Saved c SavedObject :: rest =>
    match OnObjectSaved eq c ed SavedObject with
    | none => none
    | some r => runCalls eq r.After rest
  | ed, Call.Ticked :: rest => runCalls eq (Tick ed) rest

/-- A call that is a save. -/
def Call.isSave : Call → Bool
  | Call.Saved _ _ => true
  | Call.Ticked => false

/-! ## LinterSettings.cpp -/

/-- A `ConstructorHelpers::FObjectFinder<ULintRuleSet>`: the object it found, or
`none` for a null `Object`. -/
structure FObjectFinder where
  Object : Option ULintRuleSet
  deriving DecidableEq, Repr

/-- The reference text handed to the object finder by the settings constructor. -/
def DefaultMiclosRuleSetText : FString :=
  "LintRuleSet'/Linter/MiclosLinter/MiclosLinterRuleSet.MiclosLinterRuleSet'"

/-- `ULinterSettings::ULinterSettings`.  `FindObject` is the lookup done by the
constructor of an object finder; `DefaultMiclosRuleSetRef` is the function-local
static finder, `none` while it has not been initialised; `Super` is the object
as the base constructor left it.  Returns the constructed settings and the
static after the call. -/
def ULinterSettings.ULinterSettings (FindObject : FString → Option ULintRuleSet)
    (DefaultMiclosRuleSetRef : Option FObjectFinder) (Super : ULinterSettings) :
    ULinterSettings × Option FObjectFinder :=
  if TSoftObjectPtr.IsNull Super.DefaultLintRuleSet then
    let finder : FObjectFinder :=
      match DefaultMiclosRuleSetRef with
      | some f => f
      | none => { Object := FindObject DefaultMiclosRuleSetText }
    ({ Super with DefaultLintRuleSet := TSoftObjectPtr.ofObject finder.Object }, some finder)
  else (Super, DefaultMiclosRuleSetRef)

/-! ## Naming convention matcher -/

/-- Modelled from the spec: the naming convention code is not among the sources.
A pattern is a required prefix, an optional suffix (empty when none is
configured) and whether matching is case-sensitive. -/
structure ConventionPattern where
  RequiredPrefix : String
  OptionalSuffix : String
  CaseSensitive : Bool
  deriving DecidableEq, Repr

/-- Modelled from the spec: the naming convention code is not among the sources.
The table maps a classification key to its pattern. -/
abbrev ConventionTable := List (String × ConventionPattern)

/-- Modelled from the spec: the naming convention code is not among the sources.
The part of a name a failed check names. -/
inductive NamePart where
  | Prefix
  | Suffix
  | Body
  deriving DecidableEq, Repr

/-- Modelled from the spec: the naming convention code is not among the sources.
A naming violation names the part that failed and what was expected. -/
structure NamingViolation where
  Part : NamePart
  Expected : String
  deriving DecidableEq, Repr

/-- Characters of a string as compared under a case sensitivity: unchanged when
case-sensitive, letters lowered otherwise. -/
def foldCase (caseSensitive : Bool) (s : String) : List Char :=
  if caseSensitive then s.data else s.data.map Char.toLower

/-- Modelled from the spec: the naming convention code is not among the sources.
`NamingConventionMatcher.Check`: no violation for a classification without an
entry; otherwise the name must start with the prefix under the configured case
sensitivity, end with the suffix when one is configured, and leave a non-empty
remainder once both are stripped. -/
def Check (classification name : String) (config : ConventionTable) :
    Option NamingViolation :=
  match config.lookup classification with
  | none => none
  | some pat =>
    let n := foldCase pat.CaseSensitive name
    let pre := foldCase pat.CaseSensitive pat.RequiredPrefix
    let suf := foldCase pat.CaseSensitive pat.OptionalSuffix
    if !(pre.isPrefixOf n) then
      some { Part := NamePart.Prefix, Expected := pat.RequiredPrefix }
    else if !(suf.isEmpty) && !(suf.isSuffixOf n) then
      some { Part := NamePart.Suffix, Expected := pat.OptionalSuffix }
    else if ((n.drop pre.length).take (n.length - pre.length - suf.length)).isEmpty then
      some { Part := NamePart.Body, Expected := "a non-empty name between prefix and suffix" }
    else none

/-- The configuration of the boundary example: classification "Widget" with
prefix "WBP_" and no suffix, under a given case sensitivity. -/
def widgetConfig (caseSensitive : Bool) : ConventionTable :=
  [("Widget", { RequiredPrefix := "WBP_", OptionalSuffix := "", CaseSensitive := caseSensitive })]

/-! ## Predicates and reference definitions used by the statements -/

/-- The severity the save hook consults for a violation: the `RuleSeverity` of
the class default object of the violated rule. -/
def consultedSeverity (v : FLintRuleViolation) : ELintRuleSeverity :=
  v.ViolatedRule.GetDefaultObject.RuleSeverity

/-- A violation counted as an error: consulted severity `Fatal` or `Error`. -/
def countsAsError (v : FLintRuleViolation) : Bool :=
  decide (consultedSeverity v = ELintRuleSeverity.Fatal ∨
    consultedSeverity v = ELintRuleSeverity.Error)

/-- A violation counted as a warning: consulted severity `Warning` or `Info`. -/
def countsAsWarning (v : FLintRuleViolation) : Bool :=
  decide (consultedSeverity v = ELintRuleSeverity.Warning ∨
    consultedSeverity v = ELintRuleSeverity.Info)

/-- The saved paths after a save whose scan returned `vs`. -/
def savedPathsAfter (eq : FString → FString → Bool) (old : List FString) (path : FString)
    (vs : List FLintRuleViolation) : List FString :=
  if vs = [] then old else AddUnique eq old path

/-- String comparison by exact equality, one admissible `FString::operator==`. -/
def exactEq : FString → FString → Bool := fun a b => a == b

/-- A rule set at the built-in path. -/
def sampleRuleSet : ULintRuleSet :=
  { PathName := "/Linter/MiclosLinter/MiclosLinterRuleSet.MiclosLinterRuleSet" }

/-- A rule class whose default object has the given severity. -/
def sampleRule (s : ELintRuleSeverity) : ULintRuleClass :=
  { Identifier := "NamingConvention", GetDefaultObject := { RuleSeverity := s } }

/-- A violation of `sampleRule defaultSeverity` carrying `effective`. -/
def sampleViolation (defaultSeverity effective : ELintRuleSeverity) : FLintRuleViolation :=
  { Violator := "/Game/UI/LoginScreen", ViolatedRule := sampleRule defaultSeverity,
    EffectiveSeverity := effective, Message := "missing WBP_ prefix" }

/-- Surroundings in which the default rule set loads and every scan returns `vs`. -/
def sampleCollaborators (vs : List FLintRuleViolation) : Collaborators :=
  { Settings := { DefaultLintRuleSet := some sampleRuleSet.PathName },
    LoadSynchronous := fun p => p.map (fun path => { PathName := path }),
    LintPathShared := fun _ _ => vs }

/-- The editor right after module start-up. -/
def initialEditor : Editor :=
  { Linter := { DesiredLintPaths := [], SavedObjectPaths := [] },
    ScanCalls := [], InvokedTabs := [] }

/-- A saved asset. -/
def sampleObject : UObject := { GetPathName := "/Game/UI/LoginScreen" }

/-- One violation of each severity, and a second `Error`. -/
def mixedViolations : List FLintRuleViolation :=
  [sampleViolation .Fatal .Fatal, sampleViolation .Error .Error,
   sampleViolation .Warning .Warning, sampleViolation .Info .Info,
   sampleViolation .Error .Error]

/-- The tally the spec words describe for C5: every violation classified by the
effective severity it carries. -/
def tallyByEffectiveSeverity (vs : List FLintRuleViolation) : Tally :=
  { NumErrors := vs.countP (fun v => decide (v.EffectiveSeverity ≤ ELintRuleSeverity.Error)),
    NumWarnings :=
      vs.countP (fun v => decide (¬ v.EffectiveSeverity ≤ ELintRuleSeverity.Error)) }

/-- A violation of a rule whose default severity is `Error`, lowered to
`Warning` by the rule set it was evaluated under. -/
def loweredViolation : FLintRuleViolation :=
  sampleViolation ELintRuleSeverity.Error ELintRuleSeverity.Warning

/-- A violation of a rule whose default severity is `Info`, raised to `Fatal` by
the rule set it was evaluated under. -/
def raisedViolation : FLintRuleViolation :=
  sampleViolation ELintRuleSeverity.Info ELintRuleSeverity.Fatal

/-- The scan of `c` with the effective severity of every returned violation
replaced by `f` of that violation. -/
def withEffectiveSeverity (c : Collaborators)
    (f : FLintRuleViolation → ELintRuleSeverity) : Collaborators :=
  { c with LintPathShared := fun rs paths =>
      (c.LintPathShared rs paths).map (fun v => { v with EffectiveSeverity := f v }) }

/-- An editor with two saved paths pending and an older desired list. -/
def pendingEditor : Editor :=
  { Linter := { DesiredLintPaths := ["/Game/Old"],
                SavedObjectPaths := ["/Game/UI/LoginScreen", "/Game/Maps/Start"] },
    ScanCalls := [], InvokedTabs := [] }

/-- No element of the list compares equal to a later one. -/
def Distinct (eq : FString → FString → Bool) (xs : List FString) : Prop :=
  xs.Pairwise (fun a b => eq a b = false)

/-- Some element of the list compares equal to the path. -/
def Holds (eq : FString → FString → Bool) (xs : List FString) (path : FString) : Prop :=
  ∃ e ∈ xs, eq e path = true

/-- Another saved asset. -/
def otherObject : UObject := { GetPathName := "/Game/Maps/Start" }

/-- The editor after the save of `sampleObject` with violations and then of
`otherObject` with violations, from the initial editor. -/
def twoSavedEditor : Editor :=
  { Linter := { DesiredLintPaths := [],
                SavedObjectPaths := ["/Game/UI/LoginScreen", "/Game/Maps/Start"] },
    ScanCalls :=
      [{ RuleSet := sampleRuleSet, AssetPaths := ["/Game/UI/LoginScreen"] },
       { RuleSet := sampleRuleSet, AssetPaths := ["/Game/Maps/Start"] }],
    InvokedTabs := [] }

/-- Three saves with violations, the first asset saved twice, then a tick and a
further save. -/
def sampleCalls : List Call :=
  [Call.Saved (sampleCollaborators mixedViolations) sampleObject,
   Call.Saved (sampleCollaborators mixedViolations) otherObject,
   Call.Saved (sampleCollaborators [loweredViolation]) sampleObject,
   Call.Ticked,
   Call.Saved (sampleCollaborators [loweredViolation]) otherObject]

/-- An object lookup that knows the built-in rule set only. -/
def sampleFindObject : FString → Option ULintRuleSet := fun text =>
  if text = "LintRuleSet'/Linter/MiclosLinter/MiclosLinterRuleSet.MiclosLinterRuleSet'" then
    some sampleRuleSet
  else none

/-- Settings already configured with a project rule set. -/
def configuredSettings : ULinterSettings :=
  { DefaultLintRuleSet := some "/Game/Linter/ProjectRuleSet.ProjectRuleSet" }

/-! ## Properties -/

theorem le_Error_iff (s : ELintRuleSeverity) :
    s ≤ ELintRuleSeverity.Error ↔ s = ELintRuleSeverity.Fatal ∨ s = ELintRuleSeverity.Error := by
  cases s <;> decide

theorem not_le_Error_iff (s : ELintRuleSeverity) :
    ¬ s ≤ ELintRuleSeverity.Error ↔
      s = ELintRuleSeverity.Warning ∨ s = ELintRuleSeverity.Info := by
  cases s <;> decide

theorem tallyStep_of_error (t : Tally) (v : FLintRuleViolation) (h : countsAsError v = true) :
    tallyStep t v = { NumErrors := t.NumErrors + 1, NumWarnings := t.NumWarnings } := by
  have h1 : v.ViolatedRule.GetDefaultObject.RuleSeverity ≤ ELintRuleSeverity.Error :=
    (le_Error_iff _).2 (by simpa [countsAsError, consultedSeverity] using h)
  simp [tallyStep, h1]

theorem tallyStep_of_warning (t : Tally) (v : FLintRuleViolation)
    (h : countsAsError v = false) :
    tallyStep t v = { NumErrors := t.NumErrors, NumWarnings := t.NumWarnings + 1 } := by
  have h1 : ¬ v.ViolatedRule.GetDefaultObject.RuleSeverity ≤ ELintRuleSeverity.Error := by
    intro hle
    have := (le_Error_iff _).1 hle
    simp [countsAsError, consultedSeverity] at h
    rcases this with h2 | h2
    · exact h.1 h2
    · exact h.2 h2
  simp [tallyStep, h1]

theorem countsAsWarning_eq_not (v : FLintRuleViolation) :
    countsAsWarning v = !countsAsError v := by
  unfold countsAsWarning countsAsError
  cases consultedSeverity v <;> simp

theorem foldl_tallyStep (vs : List FLintRuleViolation) (t : Tally) :
    vs.foldl tallyStep t =
      { NumErrors := t.NumErrors + vs.countP countsAsError,
        NumWarnings := t.NumWarnings + vs.countP countsAsWarning } := by
  induction vs generalizing t with
  | nil => simp
  | cons v rest ih =>
    rw [List.foldl_cons, ih]
    cases hv : countsAsError v
    · rw [tallyStep_of_warning t v hv]
      simp [List.countP_cons, countsAsWarning_eq_not, hv]
      omega
    · rw [tallyStep_of_error t v hv]
      simp [List.countP_cons, countsAsWarning_eq_not, hv]
      omega

theorem tallyViolations_eq (vs : List FLintRuleViolation) :
    tallyViolations vs =
      { NumErrors := vs.countP countsAsError, NumWarnings := vs.countP countsAsWarning } := by
  simp [tallyViolations, foldl_tallyStep]

theorem tally_sum (vs : List FLintRuleViolation) :
    (tallyViolations vs).NumErrors + (tallyViolations vs).NumWarnings = vs.length := by
  rw [tallyViolations_eq]
  induction vs with
  | nil => simp
  | cons v rest ih =>
    simp only [List.countP_cons, List.length_cons, countsAsWarning_eq_not] at ih ⊢
    cases countsAsError v <;> simp <;> omega

theorem tally_pos_iff (vs : List FLintRuleViolation) :
    ((tallyViolations vs).NumErrors > 0 ∨ (tallyViolations vs).NumWarnings > 0) ↔ vs ≠ [] := by
  have h := tally_sum vs
  constructor
  · intro hpos hnil
    subst hnil
    simp at h
    omega
  · intro hne
    have : 0 < vs.length := List.length_pos.2 hne
    omega

theorem OnObjectSaved_of_loaded (eq : FString → FString → Bool) (c : Collaborators)
    (ed : Editor) (SavedObject : UObject) (rs : ULintRuleSet)
    (hload : c.LoadSynchronous c.Settings.DefaultLintRuleSet = some rs) :
    OnObjectSaved eq c ed SavedObject = some
      { After :=
          { Linter :=
              { DesiredLintPaths := ed.Linter.DesiredLintPaths,
                SavedObjectPaths := savedPathsAfter eq ed.Linter.SavedObjectPaths
                  SavedObject.GetPathName (c.LintPathShared rs [SavedObject.GetPathName]) },
            ScanCalls := ed.ScanCalls ++
              [{ RuleSet := rs, AssetPaths := [SavedObject.GetPathName] }],
            InvokedTabs := ed.InvokedTabs },
        LintPaths := [SavedObject.GetPathName],
        RuleViolations := c.LintPathShared rs [SavedObject.GetPathName],
        NumErrors := (tallyViolations (c.LintPathShared rs [SavedObject.GetPathName])).NumErrors,
        NumWarnings :=
          (tallyViolations (c.LintPathShared rs [SavedObject.GetPathName])).NumWarnings } := by
  unfold OnObjectSaved
  rw [hload]
  simp only [List.nil_append, List.head?_cons]
  by_cases hvs : c.LintPathShared rs [SavedObject.GetPathName] = []
  · have hno : ¬ ((tallyViolations (c.LintPathShared rs [SavedObject.GetPathName])).NumErrors > 0 ∨
        (tallyViolations (c.LintPathShared rs [SavedObject.GetPathName])).NumWarnings > 0) :=
      fun h => (tally_pos_iff _).1 h hvs
    rw [if_neg hno]
    simp only [savedPathsAfter, hvs, if_true]
  · have hyes := (tally_pos_iff _).2 hvs
    simp only [hyes, if_true, savedPathsAfter, hvs, if_false]

/-! ### The save hook -/

/-- C1: in `OnObjectSaved`, for every list of violations returned by the scan,
`NumErrors` ends equal to the number of violations whose severity is `<= Error`
in the order `Fatal < Error < Warning < Info`, that is `Fatal` or `Error` with
`Error` included, and `NumWarnings` ends equal to the number of the remaining
ones, `Warning` or `Info`.  The severity is the one the hook consults, the
`RuleSeverity` of the violated rule's default object. -/
theorem OnObjectSaved_counts_errors_and_warnings (eq : FString → FString → Bool)
    (c : Collaborators) (ed : Editor) (SavedObject : UObject) (rs : ULintRuleSet)
    (vs : List FLintRuleViolation)
    (hload : c.LoadSynchronous c.Settings.DefaultLintRuleSet = some rs)
    (hscan : c.LintPathShared rs [SavedObject.GetPathName] = vs) :
    ∃ r, OnObjectSaved eq c ed SavedObject = some r ∧ r.RuleViolations = vs ∧
      r.NumErrors = vs.countP (fun v =>
        decide (v.ViolatedRule.GetDefaultObject.RuleSeverity ≤ ELintRuleSeverity.Error)) ∧
      r.NumErrors = vs.countP (fun v =>
        decide (v.ViolatedRule.GetDefaultObject.RuleSeverity = ELintRuleSeverity.Fatal ∨
          v.ViolatedRule.GetDefaultObject.RuleSeverity = ELintRuleSeverity.Error)) ∧
      r.NumWarnings = vs.countP (fun v =>
        decide (v.ViolatedRule.GetDefaultObject.RuleSeverity = ELintRuleSeverity.Warning ∨
          v.ViolatedRule.GetDefaultObject.RuleSeverity = ELintRuleSeverity.Info)) ∧
      r.NumErrors + r.NumWarnings = vs.length := by
  refine ⟨_, OnObjectSaved_of_loaded eq c ed SavedObject rs hload, ?_, ?_, ?_, ?_, ?_⟩
  · exact hscan
  · show (tallyViolations _).NumErrors = _
    rw [hscan, tallyViolations_eq]
    show List.countP countsAsError vs = _
    congr 1
    funext v
    simp only [countsAsError, consultedSeverity, le_Error_iff]
  · show (tallyViolations _).NumErrors = _
    rw [hscan, tallyViolations_eq]
    rfl
  · show (tallyViolations _).NumWarnings = _
    rw [hscan, tallyViolations_eq]
    rfl
  · show (tallyViolations _).NumErrors + (tallyViolations _).NumWarnings = _
    rw [hscan, tally_sum]

/-- C1 at a scan returning one violation of each severity and a second `Error`:
three errors, two warnings. -/
theorem OnObjectSaved_counts_errors_and_warnings_witness :
    (sampleCollaborators mixedViolations).LoadSynchronous
        (sampleCollaborators mixedViolations).Settings.DefaultLintRuleSet = some sampleRuleSet ∧
      (sampleCollaborators mixedViolations).LintPathShared sampleRuleSet
        [sampleObject.GetPathName] = mixedViolations ∧
      ∃ r, OnObjectSaved exactEq (sampleCollaborators mixedViolations) initialEditor
          sampleObject = some r ∧ r.RuleViolations = mixedViolations ∧
        r.NumErrors = mixedViolations.countP (fun v =>
          decide (v.ViolatedRule.GetDefaultObject.RuleSeverity ≤ ELintRuleSeverity.Error)) ∧
        r.NumErrors = mixedViolations.countP (fun v =>
          decide (v.ViolatedRule.GetDefaultObject.RuleSeverity = ELintRuleSeverity.Fatal ∨
            v.ViolatedRule.GetDefaultObject.RuleSeverity = ELintRuleSeverity.Error)) ∧
        r.NumWarnings = mixedViolations.countP (fun v =>
          decide (v.ViolatedRule.GetDefaultObject.RuleSeverity = ELintRuleSeverity.Warning ∨
            v.ViolatedRule.GetDefaultObject.RuleSeverity = ELintRuleSeverity.Info)) ∧
        r.NumErrors + r.NumWarnings = mixedViolations.length :=
  ⟨rfl, rfl, OnObjectSaved_counts_errors_and_warnings exactEq
    (sampleCollaborators mixedViolations) initialEditor sampleObject sampleRuleSet
    mixedViolations rfl rfl⟩

example : (OnObjectSaved exactEq (sampleCollaborators mixedViolations) initialEditor
    sampleObject).map (fun r => (r.NumErrors, r.NumWarnings)) = some (3, 2) := by decide

/-- C2: the gate decides from the tally.  For every saved object and every
violation list returned by the scan, `NumErrors > 0 || NumWarnings > 0` holds
exactly when the list is non-empty; when it holds the saved path goes through
`AddUnique` into `SavedObjectPaths`, after which it is the last element unless an
element comparing equal to it was already there; when the list is empty
`SavedObjectPaths` is unchanged. -/
theorem OnObjectSaved_marks_path_iff_violations (eq : FString → FString → Bool)
    (c : Collaborators) (ed : Editor) (SavedObject : UObject) (rs : ULintRuleSet)
    (vs : List FLintRuleViolation)
    (hload : c.LoadSynchronous c.Settings.DefaultLintRuleSet = some rs)
    (hscan : c.LintPathShared rs [SavedObject.GetPathName] = vs) :
    ∃ r, OnObjectSaved eq c ed SavedObject = some r ∧
      ((r.NumErrors > 0 ∨ r.NumWarnings > 0) ↔ vs ≠ []) ∧
      ((r.NumErrors > 0 ∨ r.NumWarnings > 0) →
        r.After.Linter.SavedObjectPaths =
          AddUnique eq ed.Linter.SavedObjectPaths SavedObject.GetPathName ∧
        (r.After.Linter.SavedObjectPaths =
            ed.Linter.SavedObjectPaths ++ [SavedObject.GetPathName] ∨
          (r.After.Linter.SavedObjectPaths = ed.Linter.SavedObjectPaths ∧
            ∃ e ∈ ed.Linter.SavedObjectPaths, eq e SavedObject.GetPathName = true))) ∧
      (¬ (r.NumErrors > 0 ∨ r.NumWarnings > 0) →
        r.After.Linter.SavedObjectPaths = ed.Linter.SavedObjectPaths) ∧
      (vs = [] → r.After.Linter.SavedObjectPaths = ed.Linter.SavedObjectPaths) := by
  refine ⟨_, OnObjectSaved_of_loaded eq c ed SavedObject rs hload, ?_, ?_, ?_, ?_⟩
  · show ((tallyViolations _).NumErrors > 0 ∨ (tallyViolations _).NumWarnings > 0) ↔ _
    rw [hscan]
    exact tally_pos_iff vs
  · intro hpos
    have hne : vs ≠ [] := by
      rw [← hscan]
      exact (tally_pos_iff _).1 hpos
    have hpaths : savedPathsAfter eq ed.Linter.SavedObjectPaths SavedObject.GetPathName
        (c.LintPathShared rs [SavedObject.GetPathName]) =
          AddUnique eq ed.Linter.SavedObjectPaths SavedObject.GetPathName := by
      rw [hscan]
      simp [savedPathsAfter, hne]
    refine ⟨hpaths, ?_⟩
    show savedPathsAfter _ _ _ _ = _ ∨ (savedPathsAfter _ _ _ _ = _ ∧ _)
    rw [hpaths]
    unfold AddUnique
    by_cases hany : (ed.Linter.SavedObjectPaths.any
        (fun e => eq e SavedObject.GetPathName)) = true
    · right
      rw [if_pos hany]
      refine ⟨rfl, ?_⟩
      simpa [List.any_eq_true] using hany
    · left
      rw [if_neg hany]
  · intro hnot
    have hnil : c.LintPathShared rs [SavedObject.GetPathName] = [] := by
      by_contra hne
      exact hnot ((tally_pos_iff _).2 hne)
    show savedPathsAfter _ _ _ _ = _
    simp [savedPathsAfter, hnil]
  · intro hnil
    show savedPathsAfter _ _ _ _ = _
    rw [hscan]
    simp [savedPathsAfter, hnil]

/-- C2 at a save whose scan returns five violations, from the initial editor:
the saved path becomes the only element of `SavedObjectPaths`. -/
theorem OnObjectSaved_marks_path_iff_violations_witness :
    (sampleCollaborators mixedViolations).LoadSynchronous
        (sampleCollaborators mixedViolations).Settings.DefaultLintRuleSet = some sampleRuleSet ∧
      (sampleCollaborators mixedViolations).LintPathShared sampleRuleSet
        [sampleObject.GetPathName] = mixedViolations ∧
      ∃ r, OnObjectSaved exactEq (sampleCollaborators mixedViolations) initialEditor
          sampleObject = some r ∧
        ((r.NumErrors > 0 ∨ r.NumWarnings > 0) ↔ mixedViolations ≠ []) ∧
        ((r.NumErrors > 0 ∨ r.NumWarnings > 0) →
          r.After.Linter.SavedObjectPaths =
            AddUnique exactEq initialEditor.Linter.SavedObjectPaths sampleObject.GetPathName ∧
          (r.After.Linter.SavedObjectPaths =
              initialEditor.Linter.SavedObjectPaths ++ [sampleObject.GetPathName] ∨
            (r.After.Linter.SavedObjectPaths = initialEditor.Linter.SavedObjectPaths ∧
              ∃ e ∈ initialEditor.Linter.SavedObjectPaths,
                exactEq e sampleObject.GetPathName = true))) ∧
        (¬ (r.NumErrors > 0 ∨ r.NumWarnings > 0) →
          r.After.Linter.SavedObjectPaths = initialEditor.Linter.SavedObjectPaths) ∧
        (mixedViolations = [] →
          r.After.Linter.SavedObjectPaths = initialEditor.Linter.SavedObjectPaths) :=
  ⟨rfl, rfl, OnObjectSaved_marks_path_iff_violations exactEq
    (sampleCollaborators mixedViolations) initialEditor sampleObject sampleRuleSet
    mixedViolations rfl rfl⟩

example : (OnObjectSaved exactEq (sampleCollaborators mixedViolations) initialEditor
    sampleObject).map (fun r => r.After.Linter.SavedObjectPaths) =
      some ["/Game/UI/LoginScreen"] := by decide

example : (OnObjectSaved exactEq (sampleCollaborators []) initialEditor
    sampleObject).map (fun r => r.After.Linter.SavedObjectPaths) = some [] := by decide

/-- C6: the save hook only collects the changed path and triggers a scan.  For
every saved object, when the default rule set of the settings loads,
`OnObjectSaved` returns after exactly one more scan call, made on that rule set
with the one-element list holding the saved object's path name; its violations
are what that call returned; `SavedObjectPaths` is either unchanged or extended
at the end by that same path; the desired lint paths and the invoked tabs are
untouched. -/
theorem OnObjectSaved_scans_saved_path_once (eq : FString → FString → Bool)
    (c : Collaborators) (ed : Editor) (SavedObject : UObject) (rs : ULintRuleSet)
    (hload : c.LoadSynchronous c.Settings.DefaultLintRuleSet = some rs) :
    ∃ r, OnObjectSaved eq c ed SavedObject = some r ∧
      r.After.ScanCalls = ed.ScanCalls ++
        [{ RuleSet := rs, AssetPaths := [SavedObject.GetPathName] }] ∧
      r.After.ScanCalls.length = ed.ScanCalls.length + 1 ∧
      r.LintPaths = [SavedObject.GetPathName] ∧
      r.RuleViolations = c.LintPathShared rs [SavedObject.GetPathName] ∧
      (r.After.Linter.SavedObjectPaths = ed.Linter.SavedObjectPaths ∨
        r.After.Linter.SavedObjectPaths =
          ed.Linter.SavedObjectPaths ++ [SavedObject.GetPathName]) ∧
      (∀ p ∈ r.After.Linter.SavedObjectPaths,
        p ∈ ed.Linter.SavedObjectPaths ∨ p = SavedObject.GetPathName) ∧
      r.After.Linter.DesiredLintPaths = ed.Linter.DesiredLintPaths ∧
      r.After.InvokedTabs = ed.InvokedTabs := by
  have hcases : savedPathsAfter eq ed.Linter.SavedObjectPaths SavedObject.GetPathName
        (c.LintPathShared rs [SavedObject.GetPathName]) = ed.Linter.SavedObjectPaths ∨
      savedPathsAfter eq ed.Linter.SavedObjectPaths SavedObject.GetPathName
        (c.LintPathShared rs [SavedObject.GetPathName]) =
          ed.Linter.SavedObjectPaths ++ [SavedObject.GetPathName] := by
    unfold savedPathsAfter AddUnique
    split
    · exact Or.inl rfl
    · split
      · exact Or.inl rfl
      · exact Or.inr rfl
  refine ⟨_, OnObjectSaved_of_loaded eq c ed SavedObject rs hload, rfl, ?_, rfl, rfl,
    hcases, ?_, rfl, rfl⟩
  · simp
  · intro p hp
    change p ∈ savedPathsAfter _ _ _ _ at hp
    rcases hcases with h | h
    · rw [h] at hp
      exact Or.inl hp
    · rw [h] at hp
      rcases List.mem_append.1 hp with h1 | h1
      · exact Or.inl h1
      · exact Or.inr (by simpa using h1)

/-- C6 at a save from the initial editor with a scan returning five violations. -/
theorem OnObjectSaved_scans_saved_path_once_witness :
    (sampleCollaborators mixedViolations).LoadSynchronous
        (sampleCollaborators mixedViolations).Settings.DefaultLintRuleSet = some sampleRuleSet ∧
      ∃ r, OnObjectSaved exactEq (sampleCollaborators mixedViolations) initialEditor
          sampleObject = some r ∧
        r.After.ScanCalls = initialEditor.ScanCalls ++
          [{ RuleSet := sampleRuleSet, AssetPaths := [sampleObject.GetPathName] }] ∧
        r.After.ScanCalls.length = initialEditor.ScanCalls.length + 1 ∧
        r.LintPaths = [sampleObject.GetPathName] ∧
        r.RuleViolations = (sampleCollaborators mixedViolations).LintPathShared sampleRuleSet
          [sampleObject.GetPathName] ∧
        (r.After.Linter.SavedObjectPaths = initialEditor.Linter.SavedObjectPaths ∨
          r.After.Linter.SavedObjectPaths =
            initialEditor.Linter.SavedObjectPaths ++ [sampleObject.GetPathName]) ∧
        (∀ p ∈ r.After.Linter.SavedObjectPaths,
          p ∈ initialEditor.Linter.SavedObjectPaths ∨ p = sampleObject.GetPathName) ∧
        r.After.Linter.DesiredLintPaths = initialEditor.Linter.DesiredLintPaths ∧
        r.After.InvokedTabs = initialEditor.InvokedTabs :=
  ⟨rfl, OnObjectSaved_scans_saved_path_once exactEq (sampleCollaborators mixedViolations)
    initialEditor sampleObject sampleRuleSet rfl⟩

example : (OnObjectSaved exactEq (sampleCollaborators mixedViolations) initialEditor
    sampleObject).map (fun r => r.After.ScanCalls) =
      some [{ RuleSet := sampleRuleSet, AssetPaths := ["/Game/UI/LoginScreen"] }] := by decide

/-- C5 fails as stated: a violation whose effective severity `Warning` differs
from its rule's default `Error` is tallied by `OnObjectSaved` as an error, where
the effective severity makes it a warning; one raised from `Info` to `Fatal` is
tallied as a warning, where the effective severity makes it an error. -/
theorem OnObjectSaved_effective_severity_counterexample :
    loweredViolation.EffectiveSeverity ≠
        loweredViolation.ViolatedRule.GetDefaultObject.RuleSeverity ∧
      (OnObjectSaved exactEq (sampleCollaborators [loweredViolation]) initialEditor
        sampleObject).map (fun r => (r.NumErrors, r.NumWarnings)) = some (1, 0) ∧
      tallyByEffectiveSeverity [loweredViolation] = { NumErrors := 0, NumWarnings := 1 } ∧
      raisedViolation.EffectiveSeverity ≠
        raisedViolation.ViolatedRule.GetDefaultObject.RuleSeverity ∧
      (OnObjectSaved exactEq (sampleCollaborators [raisedViolation]) initialEditor
        sampleObject).map (fun r => (r.NumErrors, r.NumWarnings)) = some (0, 1) ∧
      tallyByEffectiveSeverity [raisedViolation] = { NumErrors := 1, NumWarnings := 0 } := by
  decide

theorem countP_map_effective (vs : List FLintRuleViolation)
    (f : FLintRuleViolation → ELintRuleSeverity)
    (q : ELintRuleSeverity → Bool) :
    (vs.map (fun v => { v with EffectiveSeverity := f v })).countP
        (fun v => q v.ViolatedRule.GetDefaultObject.RuleSeverity) =
      vs.countP (fun v => q v.ViolatedRule.GetDefaultObject.RuleSeverity) := by
  induction vs with
  | nil => rfl
  | cons v rest ih => simp only [List.map_cons, List.countP_cons, ih]

/-- C5, amended: `OnObjectSaved` classifies every violation by the default
severity of the rule that produced it, that is the `RuleSeverity` of the default
object of the violated rule class, whatever effective severity the violation
carries.  The counters count the violations by that default severity, and
replacing the effective severities of the returned violations in any way leaves
both counters as they were. -/
theorem OnObjectSaved_tallies_by_rule_default (eq : FString → FString → Bool)
    (c : Collaborators) (ed : Editor) (SavedObject : UObject) (rs : ULintRuleSet)
    (f : FLintRuleViolation → ELintRuleSeverity)
    (hload : c.LoadSynchronous c.Settings.DefaultLintRuleSet = some rs) :
    ∃ r r2, OnObjectSaved eq c ed SavedObject = some r ∧
      OnObjectSaved eq (withEffectiveSeverity c f) ed SavedObject = some r2 ∧
      r2.RuleViolations =
        r.RuleViolations.map (fun v => { v with EffectiveSeverity := f v }) ∧
      r.NumErrors = r.RuleViolations.countP (fun v =>
        decide (v.ViolatedRule.GetDefaultObject.RuleSeverity ≤ ELintRuleSeverity.Error)) ∧
      r.NumWarnings = r.RuleViolations.countP (fun v =>
        decide (¬ v.ViolatedRule.GetDefaultObject.RuleSeverity ≤ ELintRuleSeverity.Error)) ∧
      r2.NumErrors = r.NumErrors ∧ r2.NumWarnings = r.NumWarnings := by
  have hload2 : (withEffectiveSeverity c f).LoadSynchronous
      (withEffectiveSeverity c f).Settings.DefaultLintRuleSet = some rs := hload
  have hE : ∀ vs : List FLintRuleViolation, (tallyViolations vs).NumErrors =
      vs.countP (fun v => (fun s => decide (s ≤ ELintRuleSeverity.Error))
        v.ViolatedRule.GetDefaultObject.RuleSeverity) := by
    intro vs
    rw [tallyViolations_eq]
    show List.countP countsAsError vs = _
    congr 1
    funext v
    simp only [countsAsError, consultedSeverity, le_Error_iff]
  have hW : ∀ vs : List FLintRuleViolation, (tallyViolations vs).NumWarnings =
      vs.countP (fun v => (fun s => decide (¬ s ≤ ELintRuleSeverity.Error))
        v.ViolatedRule.GetDefaultObject.RuleSeverity) := by
    intro vs
    rw [tallyViolations_eq]
    show List.countP countsAsWarning vs = _
    congr 1
    funext v
    simp only [countsAsWarning, consultedSeverity, not_le_Error_iff]
  refine ⟨_, _, OnObjectSaved_of_loaded eq c ed SavedObject rs hload,
    OnObjectSaved_of_loaded eq (withEffectiveSeverity c f) ed SavedObject rs hload2,
    rfl, hE _, hW _, ?_, ?_⟩
  · show (tallyViolations (List.map _ _)).NumErrors = (tallyViolations _).NumErrors
    rw [hE, hE]
    exact countP_map_effective (c.LintPathShared rs [SavedObject.GetPathName]) f
      (fun s => decide (s ≤ ELintRuleSeverity.Error))
  · show (tallyViolations (List.map _ _)).NumWarnings = (tallyViolations _).NumWarnings
    rw [hW, hW]
    exact countP_map_effective (c.LintPathShared rs [SavedObject.GetPathName]) f
      (fun s => decide (¬ s ≤ ELintRuleSeverity.Error))

/-- C5 amended, at a scan returning one violation of default severity `Error`
whose effective severity is then replaced by `Info`. -/
theorem OnObjectSaved_tallies_by_rule_default_witness :
    (sampleCollaborators [loweredViolation]).LoadSynchronous
        (sampleCollaborators [loweredViolation]).Settings.DefaultLintRuleSet =
          some sampleRuleSet ∧
      ∃ r r2, OnObjectSaved exactEq (sampleCollaborators [loweredViolation]) initialEditor
          sampleObject = some r ∧
        OnObjectSaved exactEq (withEffectiveSeverity (sampleCollaborators [loweredViolation])
          (fun _ => ELintRuleSeverity.Info)) initialEditor sampleObject = some r2 ∧
        r2.RuleViolations =
          r.RuleViolations.map (fun v => { v with EffectiveSeverity := ELintRuleSeverity.Info }) ∧
        r.NumErrors = r.RuleViolations.countP (fun v =>
          decide (v.ViolatedRule.GetDefaultObject.RuleSeverity ≤ ELintRuleSeverity.Error)) ∧
        r.NumWarnings = r.RuleViolations.countP (fun v =>
          decide (¬ v.ViolatedRule.GetDefaultObject.RuleSeverity ≤ ELintRuleSeverity.Error)) ∧
        r2.NumErrors = r.NumErrors ∧ r2.NumWarnings = r.NumWarnings :=
  ⟨rfl, OnObjectSaved_tallies_by_rule_default exactEq (sampleCollaborators [loweredViolation])
    initialEditor sampleObject sampleRuleSet (fun _ => ELintRuleSeverity.Info) rfl⟩

/-! ### Desired lint paths -/

/-- C8: `SetDesiredLintPaths` followed by `GetDesiredLintPaths` is a round trip
with a default.  For every list `P`, after `SetDesiredLintPaths(P)` the getter
returns `P` itself when `P` is non-empty and `["/Game"]` when `P` is empty; the
getter leaves the module as the setter left it. -/
theorem SetDesiredLintPaths_then_GetDesiredLintPaths (m : FLinterModule)
    (P : List FString) :
    (GetDesiredLintPaths (SetDesiredLintPaths m P)).1 = (if P = [] then ["/Game"] else P) ∧
      (GetDesiredLintPaths (SetDesiredLintPaths m P)).2 = SetDesiredLintPaths m P ∧
      (SetDesiredLintPaths m P).SavedObjectPaths = m.SavedObjectPaths := by
  cases P with
  | nil => simp [GetDesiredLintPaths, SetDesiredLintPaths]
  | cons p rest => simp [GetDesiredLintPaths, SetDesiredLintPaths]

example : (GetDesiredLintPaths (SetDesiredLintPaths initialEditor.Linter
    ["/Game/UI", "/Game/Maps"])).1 = ["/Game/UI", "/Game/Maps"] := by decide

example : (GetDesiredLintPaths (SetDesiredLintPaths initialEditor.Linter [])).1 =
    ["/Game"] := by decide

/-- C9: `GetDesiredLintPaths` never returns an empty list and is idempotent.
From every module state it returns `["/Game"]` when the stored list was empty
and the stored list otherwise, which is never empty; it stores what it returns
and touches nothing else; a second call returns the same list and leaves the
module as the first call left it. -/
theorem GetDesiredLintPaths_nonempty_idempotent (m : FLinterModule) :
    (GetDesiredLintPaths m).1 ≠ [] ∧
      (GetDesiredLintPaths m).1 =
        (if m.DesiredLintPaths = [] then ["/Game"] else m.DesiredLintPaths) ∧
      (GetDesiredLintPaths m).2.DesiredLintPaths = (GetDesiredLintPaths m).1 ∧
      (GetDesiredLintPaths m).2.SavedObjectPaths = m.SavedObjectPaths ∧
      GetDesiredLintPaths (GetDesiredLintPaths m).2 = GetDesiredLintPaths m := by
  obtain ⟨desired, saved⟩ := m
  cases desired with
  | nil => simp [GetDesiredLintPaths]
  | cons p rest => simp [GetDesiredLintPaths]

example : (GetDesiredLintPaths initialEditor.Linter).1 = ["/Game"] := by decide

/-! ### Tick -/

/-- C3: saves are batched into a single deferred request on the next tick.  For
every state, if `SavedObjectPaths` is non-empty then `Tick` sets the desired lint
paths to exactly `SavedObjectPaths` (the getter then returns that list, no
"/Game" inserted), invokes the linter tab once and leaves `SavedObjectPaths`
empty; if `SavedObjectPaths` is empty then `Tick` changes nothing. -/
theorem Tick_batches_saved_paths (ed : Editor) :
    (ed.Linter.SavedObjectPaths ≠ [] →
      (Tick ed).Linter.DesiredLintPaths = ed.Linter.SavedObjectPaths ∧
        (GetDesiredLintPaths (Tick ed).Linter).1 = ed.Linter.SavedObjectPaths ∧
        (Tick ed).Linter.SavedObjectPaths = [] ∧
        (Tick ed).InvokedTabs = ed.InvokedTabs ++ ["LinterTab"] ∧
        (Tick ed).ScanCalls = ed.ScanCalls) ∧
      (ed.Linter.SavedObjectPaths = [] → Tick ed = ed) := by
  obtain ⟨⟨desired, saved⟩, scans, tabs⟩ := ed
  cases saved with
  | nil => simp [Tick]
  | cons p rest => simp [Tick, SetDesiredLintPaths, GetDesiredLintPaths]

/-- C3 at an editor with two pending saved paths, and at the initial editor. -/
theorem Tick_batches_saved_paths_witness :
    pendingEditor.Linter.SavedObjectPaths ≠ [] ∧
      ((Tick pendingEditor).Linter.DesiredLintPaths = pendingEditor.Linter.SavedObjectPaths ∧
        (GetDesiredLintPaths (Tick pendingEditor).Linter).1 =
          pendingEditor.Linter.SavedObjectPaths ∧
        (Tick pendingEditor).Linter.SavedObjectPaths = [] ∧
        (Tick pendingEditor).InvokedTabs = pendingEditor.InvokedTabs ++ ["LinterTab"] ∧
        (Tick pendingEditor).ScanCalls = pendingEditor.ScanCalls) ∧
      initialEditor.Linter.SavedObjectPaths = [] ∧
      Tick initialEditor = initialEditor :=
  ⟨by decide, (Tick_batches_saved_paths pendingEditor).1 (by decide), rfl,
    (Tick_batches_saved_paths initialEditor).2 rfl⟩

example : (Tick pendingEditor).Linter =
    { DesiredLintPaths := ["/Game/UI/LoginScreen", "/Game/Maps/Start"],
      SavedObjectPaths := [] } := by decide

/-! ### Debouncing of repeated saves -/

theorem Distinct_nodup (eq : FString → FString → Bool) (hrefl : ∀ s, eq s s = true)
    (xs : List FString) (h : Distinct eq xs) : xs.Nodup := by
  unfold Distinct at h
  refine List.Pairwise.imp ?_ h
  intro a b hab hEq
  subst hEq
  rw [hrefl a] at hab
  exact Bool.noConfusion hab

theorem AddUnique_distinct (eq : FString → FString → Bool) (xs : List FString)
    (x : FString) (h : Distinct eq xs) : Distinct eq (AddUnique eq xs x) := by
  unfold AddUnique
  by_cases hany : (xs.any (fun e => eq e x)) = true
  · rw [if_pos hany]
    exact h
  · rw [if_neg hany]
    unfold Distinct at h ⊢
    rw [List.pairwise_append]
    refine ⟨h, List.pairwise_singleton _ _, ?_⟩
    intro a ha b hb
    have hbx : b = x := by simpa using hb
    subst hbx
    cases hab : eq a b
    · rfl
    · exact absurd (List.any_eq_true.2 ⟨a, ha, hab⟩) hany

theorem AddUnique_holds (eq : FString → FString → Bool) (hrefl : ∀ s, eq s s = true)
    (xs : List FString) (x : FString) : Holds eq (AddUnique eq xs x) x := by
  unfold AddUnique
  by_cases hany : (xs.any (fun e => eq e x)) = true
  · rw [if_pos hany]
    exact List.any_eq_true.1 hany
  · rw [if_neg hany]
    exact ⟨x, by simp, hrefl x⟩

theorem AddUnique_of_holds (eq : FString → FString → Bool) (xs : List FString)
    (x : FString) (h : Holds eq xs x) : AddUnique eq xs x = xs := by
  unfold AddUnique
  rw [if_pos (List.any_eq_true.2 h)]

theorem AddUnique_keeps (eq : FString → FString → Bool) (xs : List FString)
    (x path : FString) (h : Holds eq xs path) : Holds eq (AddUnique eq xs x) path := by
  obtain ⟨e, he, hep⟩ := h
  unfold AddUnique
  split
  · exact ⟨e, he, hep⟩
  · exact ⟨e, List.mem_append_left _ he, hep⟩

theorem OnObjectSaved_some (eq : FString → FString → Bool) (c : Collaborators)
    (ed : Editor) (SavedObject : UObject) (r : SaveResult)
    (h : OnObjectSaved eq c ed SavedObject = some r) :
    r.After.Linter.SavedObjectPaths = savedPathsAfter eq ed.Linter.SavedObjectPaths
      SavedObject.GetPathName r.RuleViolations := by
  cases hload : c.LoadSynchronous c.Settings.DefaultLintRuleSet with
  | none =>
    unfold OnObjectSaved at h
    rw [hload] at h
    exact Option.noConfusion h
  | some rs =>
    rw [OnObjectSaved_of_loaded eq c ed SavedObject rs hload] at h
    cases h
    rfl

theorem savedPathsAfter_distinct (eq : FString → FString → Bool) (xs : List FString)
    (path : FString) (vs : List FLintRuleViolation) (h : Distinct eq xs) :
    Distinct eq (savedPathsAfter eq xs path vs) := by
  unfold savedPathsAfter
  split
  · exact h
  · exact AddUnique_distinct eq xs path h

theorem savedPathsAfter_keeps (eq : FString → FString → Bool) (xs : List FString)
    (x path : FString) (vs : List FLintRuleViolation) (h : Holds eq xs path) :
    Holds eq (savedPathsAfter eq xs x vs) path := by
  unfold savedPathsAfter
  split
  · exact h
  · exact AddUnique_keeps eq xs x path h

theorem Tick_distinct (eq : FString → FString → Bool) (ed : Editor)
    (h : Distinct eq ed.Linter.SavedObjectPaths) :
    Distinct eq (Tick ed).Linter.SavedObjectPaths := by
  unfold Tick
  split
  · exact List.Pairwise.nil
  · exact h

theorem runCalls_distinct (eq : FString → FString → Bool) (calls : List Call) :
    ∀ (ed out : Editor), Distinct eq ed.Linter.SavedObjectPaths →
      runCalls eq ed calls = some out → Distinct eq out.Linter.SavedObjectPaths := by
  induction calls with
  | nil =>
    intro ed out h hrun
    simp only [runCalls, Option.some.injEq] at hrun
    rw [← hrun]
    exact h
  | cons k rest ih =>
    intro ed out h hrun
    cases k with
    | Saved c SavedObject =>
      simp only [runCalls] at hrun
      cases hsave : OnObjectSaved eq c ed SavedObject with
      | none =>
        rw [hsave] at hrun
        exact Option.noConfusion hrun
      | some r =>
        rw [hsave] at hrun
        refine ih r.After out ?_ hrun
        rw [OnObjectSaved_some eq c ed SavedObject r hsave]
        exact savedPathsAfter_distinct eq _ _ _ h
    | Ticked =>
      simp only [runCalls] at hrun
      exact ih (Tick ed) out (Tick_distinct eq ed h) hrun

theorem runCalls_saves_keep (eq : FString → FString → Bool) (path : FString)
    (calls : List Call) :
    ∀ (ed out : Editor), (∀ k ∈ calls, k.isSave = true) →
      Holds eq ed.Linter.SavedObjectPaths path →
      runCalls eq ed calls = some out → Holds eq out.Linter.SavedObjectPaths path := by
  induction calls with
  | nil =>
    intro ed out _ h hrun
    simp only [runCalls, Option.some.injEq] at hrun
    rw [← hrun]
    exact h
  | cons k rest ih =>
    intro ed out hsaves h hrun
    have hrest : ∀ k2 ∈ rest, k2.isSave = true :=
      fun k2 hk2 => hsaves k2 (List.mem_cons_of_mem _ hk2)
    cases k with
    | Saved c SavedObject =>
      simp only [runCalls] at hrun
      cases hsave : OnObjectSaved eq c ed SavedObject with
      | none =>
        rw [hsave] at hrun
        exact Option.noConfusion hrun
      | some r =>
        rw [hsave] at hrun
        refine ih r.After out hrest ?_ hrun
        rw [OnObjectSaved_some eq c ed SavedObject r hsave]
        exact savedPathsAfter_keeps eq _ _ _ _ h
    | Ticked =>
      have hk := hsaves Call.Ticked (List.mem_cons_self _ _)
      exact Bool.noConfusion hk

/-- C4: repeated saves are debounced.  With a string comparison under which
every string equals itself: in every state reached from a state with empty
`SavedObjectPaths` by any sequence of `OnObjectSaved` and `Tick` calls,
`SavedObjectPaths` contains no path twice; and once a save of an asset has
returned violations, saving the same asset again, after any further saves and
before the next `Tick`, returns and leaves `SavedObjectPaths` unchanged. -/
theorem SavedObjectPaths_debounced (eq : FString → FString → Bool)
    (hrefl : ∀ s, eq s s = true) :
    (∀ (init : Editor) (calls : List Call) (ed : Editor),
      init.Linter.SavedObjectPaths = [] → runCalls eq init calls = some ed →
        ed.Linter.SavedObjectPaths.Nodup) ∧
    (∀ (ed : Editor) (c1 : Collaborators) (SavedObject : UObject) (r1 : SaveResult)
      (between : List Call) (mid : Editor) (c2 : Collaborators) (rs2 : ULintRuleSet),
      OnObjectSaved eq c1 ed SavedObject = some r1 → r1.RuleViolations ≠ [] →
      (∀ k ∈ between, k.isSave = true) → runCalls eq r1.After between = some mid →
      c2.LoadSynchronous c2.Settings.DefaultLintRuleSet = some rs2 →
        ∃ r2, OnObjectSaved eq c2 mid SavedObject = some r2 ∧
          r2.After.Linter.SavedObjectPaths = mid.Linter.SavedObjectPaths) := by
  constructor
  · intro init calls ed hinit hrun
    refine Distinct_nodup eq hrefl _ (runCalls_distinct eq calls init ed ?_ hrun)
    rw [hinit]
    exact List.Pairwise.nil
  · intro ed c1 SavedObject r1 between mid c2 rs2 hsave hne hsaves hrun hload
    have h1 : Holds eq r1.After.Linter.SavedObjectPaths SavedObject.GetPathName := by
      rw [OnObjectSaved_some eq c1 ed SavedObject r1 hsave]
      unfold savedPathsAfter
      rw [if_neg hne]
      exact AddUnique_holds eq hrefl _ _
    have h2 := runCalls_saves_keep eq SavedObject.GetPathName between r1.After mid
      hsaves h1 hrun
    refine ⟨_, OnObjectSaved_of_loaded eq c2 mid SavedObject rs2 hload, ?_⟩
    show savedPathsAfter _ _ _ _ = _
    unfold savedPathsAfter
    split
    · rfl
    · exact AddUnique_of_holds eq _ _ h2

theorem exactEq_refl (s : FString) : exactEq s s = true := by
  simp [exactEq]

example : (runCalls exactEq initialEditor sampleCalls).map (fun ed => ed.Linter) =
    some { DesiredLintPaths := ["/Game/UI/LoginScreen", "/Game/Maps/Start"],
           SavedObjectPaths := ["/Game/Maps/Start"] } := by decide

example : (runCalls exactEq initialEditor (sampleCalls.take 3)).map (fun ed => ed.Linter) =
    some { DesiredLintPaths := [],
           SavedObjectPaths := ["/Game/UI/LoginScreen", "/Game/Maps/Start"] } := by decide

/-- C4 at the run of `sampleCalls` from the initial editor, and at a second save
of `sampleObject` after a save of `otherObject` in between. -/
theorem SavedObjectPaths_debounced_witness :
    initialEditor.Linter.SavedObjectPaths = [] ∧
      (∃ ed, runCalls exactEq initialEditor sampleCalls = some ed ∧
        ed.Linter.SavedObjectPaths.Nodup) ∧
      (sampleCollaborators mixedViolations).LoadSynchronous
        (sampleCollaborators mixedViolations).Settings.DefaultLintRuleSet = some sampleRuleSet ∧
      ∃ r2, OnObjectSaved exactEq (sampleCollaborators mixedViolations) twoSavedEditor
          sampleObject = some r2 ∧
        r2.After.Linter.SavedObjectPaths = twoSavedEditor.Linter.SavedObjectPaths :=
  ⟨rfl,
    (Option.isSome_iff_exists.1
      (by decide : (runCalls exactEq initialEditor sampleCalls).isSome = true)).elim
      (fun ed hrun => ⟨ed, hrun,
        (SavedObjectPaths_debounced exactEq exactEq_refl).1 initialEditor sampleCalls ed
          rfl hrun⟩),
    rfl,
    (SavedObjectPaths_debounced exactEq exactEq_refl).2 initialEditor
      (sampleCollaborators mixedViolations) sampleObject _
      [Call.Saved (sampleCollaborators mixedViolations) otherObject] twoSavedEditor
      (sampleCollaborators mixedViolations) sampleRuleSet
      (OnObjectSaved_of_loaded exactEq (sampleCollaborators mixedViolations) initialEditor
        sampleObject sampleRuleSet rfl)
      (by decide)
      (by decide)
      (by decide)
      rfl⟩

/-! ### Settings constructor -/

/-- C10: the `ULinterSettings` constructor never overwrites a configured default
rule set.  For every initial value of `DefaultLintRuleSet`: if it is non-null the
settings are left unchanged and no lookup is made; if it is null it is set to
the object of the static finder for the built-in rule set reference, which the
first such construction initialises by looking that reference up and later ones
reuse. -/
theorem ULinterSettings_keeps_configured_default
    (FindObject : FString → Option ULintRuleSet)
    (DefaultMiclosRuleSetRef : Option FObjectFinder) (Super : ULinterSettings) :
    (Super.DefaultLintRuleSet ≠ none →
      ULinterSettings.ULinterSettings FindObject DefaultMiclosRuleSetRef Super =
        (Super, DefaultMiclosRuleSetRef)) ∧
    (Super.DefaultLintRuleSet = none → DefaultMiclosRuleSetRef = none →
      ULinterSettings.ULinterSettings FindObject DefaultMiclosRuleSetRef Super =
        ({ DefaultLintRuleSet := TSoftObjectPtr.ofObject (FindObject
            "LintRuleSet'/Linter/MiclosLinter/MiclosLinterRuleSet.MiclosLinterRuleSet'") },
          some { Object := (FindObject
            "LintRuleSet'/Linter/MiclosLinter/MiclosLinterRuleSet.MiclosLinterRuleSet'") })) ∧
    (Super.DefaultLintRuleSet = none → ∀ f, DefaultMiclosRuleSetRef = some f →
      ULinterSettings.ULinterSettings FindObject DefaultMiclosRuleSetRef Super =
        ({ DefaultLintRuleSet := TSoftObjectPtr.ofObject f.Object }, some f)) := by
  obtain ⟨ptr⟩ := Super
  refine ⟨?_, ?_, ?_⟩
  · intro h
    cases ptr with
    | none => exact absurd rfl h
    | some path => simp [ULinterSettings.ULinterSettings, TSoftObjectPtr.IsNull]
  · intro h hstatic
    simp only at h
    subst h
    subst hstatic
    simp [ULinterSettings.ULinterSettings, TSoftObjectPtr.IsNull, DefaultMiclosRuleSetText]
  · intro h f hstatic
    simp only at h
    subst h
    subst hstatic
    simp [ULinterSettings.ULinterSettings, TSoftObjectPtr.IsNull]

/-- C10 at configured settings, at unconfigured settings on first construction,
and at unconfigured settings once the static finder holds a null object. -/
theorem ULinterSettings_keeps_configured_default_witness :
    configuredSettings.DefaultLintRuleSet ≠ none ∧
      ULinterSettings.ULinterSettings sampleFindObject none configuredSettings =
        (configuredSettings, none) ∧
      ULinterSettings.ULinterSettings sampleFindObject none { DefaultLintRuleSet := none } =
        ({ DefaultLintRuleSet := TSoftObjectPtr.ofObject (sampleFindObject
            "LintRuleSet'/Linter/MiclosLinter/MiclosLinterRuleSet.MiclosLinterRuleSet'") },
          some { Object := (sampleFindObject
            "LintRuleSet'/Linter/MiclosLinter/MiclosLinterRuleSet.MiclosLinterRuleSet'") }) ∧
      ULinterSettings.ULinterSettings sampleFindObject (some { Object := none })
          { DefaultLintRuleSet := none } =
        ({ DefaultLintRuleSet := TSoftObjectPtr.ofObject none }, some { Object := none }) :=
  ⟨by decide,
    (ULinterSettings_keeps_configured_default sampleFindObject none configuredSettings).1
      (by decide),
    (ULinterSettings_keeps_configured_default sampleFindObject none
      { DefaultLintRuleSet := none }).2.1 rfl rfl,
    (ULinterSettings_keeps_configured_default sampleFindObject (some { Object := none })
      { DefaultLintRuleSet := none }).2.2 rfl { Object := none } rfl⟩

example : (ULinterSettings.ULinterSettings sampleFindObject none
    { DefaultLintRuleSet := none }).1.DefaultLintRuleSet =
      some "/Linter/MiclosLinter/MiclosLinterRuleSet.MiclosLinterRuleSet" := by decide

/-! ### Naming convention boundary -/

/-- C7: prefix/suffix boundary of `NamingConventionMatcher.Check`.  For every
configuration mapping classification "Widget" to prefix "WBP_" with an empty
suffix: the name "WBP_" is a violation (of the body, under either case
sensitivity), "WBP_Main" is not a violation, and "wbp_Main" is a violation (of
the prefix) under case-sensitive matching and not a violation under
case-insensitive matching. -/
theorem Check_widget_boundary (config : ConventionTable) (caseSensitive : Bool)
    (h : config.lookup "Widget" = some
      { RequiredPrefix := "WBP_", OptionalSuffix := "", CaseSensitive := caseSensitive }) :
    (Check "Widget" "WBP_" config).map (fun v => v.Part) = some NamePart.Body ∧
      Check "Widget" "WBP_Main" config = none ∧
      (caseSensitive = true →
        (Check "Widget" "wbp_Main" config).map (fun v => v.Part) = some NamePart.Prefix) ∧
      (caseSensitive = false → Check "Widget" "wbp_Main" config = none) := by
  unfold Check
  rw [h]
  cases caseSensitive <;> decide

/-- C7 at the table holding the "Widget" entry only, under both case
sensitivities. -/
theorem Check_widget_boundary_witness :
    ((widgetConfig true).lookup "Widget" = some
        { RequiredPrefix := "WBP_", OptionalSuffix := "", CaseSensitive := true } ∧
      (Check "Widget" "WBP_" (widgetConfig true)).map (fun v => v.Part) = some NamePart.Body ∧
      Check "Widget" "WBP_Main" (widgetConfig true) = none ∧
      (Check "Widget" "wbp_Main" (widgetConfig true)).map (fun v => v.Part) =
        some NamePart.Prefix) ∧
    ((widgetConfig false).lookup "Widget" = some
        { RequiredPrefix := "WBP_", OptionalSuffix := "", CaseSensitive := false } ∧
      (Check "Widget" "WBP_" (widgetConfig false)).map (fun v => v.Part) = some NamePart.Body ∧
      Check "Widget" "WBP_Main" (widgetConfig false) = none ∧
      Check "Widget" "wbp_Main" (widgetConfig false) = none) :=
  ⟨⟨by decide, (Check_widget_boundary (widgetConfig true) true (by decide)).1,
      (Check_widget_boundary (widgetConfig true) true (by decide)).2.1,
      (Check_widget_boundary (widgetConfig true) true (by decide)).2.2.1 rfl⟩,
    ⟨by decide, (Check_widget_boundary (widgetConfig false) false (by decide)).1,
      (Check_widget_boundary (widgetConfig false) false (by decide)).2.1,
      (Check_widget_boundary (widgetConfig false) false (by decide)).2.2.2 rfl⟩⟩


end Linter
